import Mathlib

/-!
Verification of the scholr study-notes application core.

This file gives a shallow embedding, in Lean 4, of the program logic of
`src/services/geminiService.ts`, `src/services/userService.ts` and the
`AITutor` component, and proves (or refutes) the behavioural claims of the
specification against it.

Modelling conventions:
* JavaScript exceptions become `Except` values; a thrown API error is an
  `ApiError` carrying the optional HTTP `status` and the `message` string.
* An asynchronous remote operation is modelled as a function
  `Nat → Except ApiError α` giving the outcome of its i-th invocation.
* `retryAPI` returns, alongside the propagated result, an observation trace:
  the number of invocations performed and the list of delays slept, in order.
* The browser `localStorage` bookmark blob is modelled as a total map
  `String → List Bookmark` (an absent user key coincides with the empty list,
  exactly as in the source's `allBookmarks[userId] || []` reads).
-/

/-- An error thrown by the remote generative-text collaborator:
`status` is the optional HTTP status code, `message` the error message. -/
structure ApiError where
  status : Option Nat
  message : String
deriving DecidableEq, Repr

/-- Auxiliary scan for substring containment (JavaScript `String.includes`). -/
def containsSubAux (sub : List Char) : List Char → Bool
  | [] => sub.isEmpty
  | c :: rest => sub.isPrefixOf (c :: rest) || containsSubAux sub rest

/-- JavaScript `s.includes(sub)`. -/
def containsSub (s sub : String) : Bool :=
  containsSubAux sub.data s.data

instance exceptDecEq {ε α : Type} [DecidableEq ε] [DecidableEq α] :
    DecidableEq (Except ε α) := fun x y =>
  match x, y with
  | .ok a, .ok b =>
    if h : a = b then .isTrue (by rw [h])
    else .isFalse (by intro hc; injection hc; contradiction)
  | .error a, .error b =>
    if h : a = b then .isTrue (by rw [h])
    else .isFalse (by intro hc; injection hc; contradiction)
  | .ok _, .error _ => .isFalse (by intro hc; exact Except.noConfusion hc)
  | .error _, .ok _ => .isFalse (by intro hc; exact Except.noConfusion hc)

/-- The transient-rate-limit signature tested by `retryAPI`
(`geminiService.ts`, lines 24-30): status 429 or 503, or a message containing
"429", "RESOURCE_EXHAUSTED" or "quota". -/
def isTransientErr (e : ApiError) : Bool :=
  e.status == some 429 ||
  e.status == some 503 ||
  containsSub e.message "429" ||
  containsSub e.message "RESOURCE_EXHAUSTED" ||
  containsSub e.message "quota"

/-- Shallow embedding of `retryAPI` (`geminiService.ts`, lines 20-37).
`op` gives the outcome of each invocation (indexed from `k`), `retries` and
`delay` are the remaining retry budget and current backoff delay.  Returns the
propagated result, the number of invocations performed, and the delays slept
(in order).  Source:

  try { return await operation(); }
  catch (error) {
    if (retries > 0 && transient(error)) {
      await sleep(delay);
      return retryAPI(operation, retries - 1, delay * 2);
    }
    throw error;
  }
-/
def retryAPI {α : Type} (op : Nat → Except ApiError α) :
    Nat → Nat → Nat → Except ApiError α × Nat × List Nat
  | k, retries, delay =>
    match op k with
    | .ok v => (.ok v, 1, [])
    | .error e =>
      match retries with
      | r + 1 =>
        if isTransientErr e then
          let t := retryAPI op (k + 1) r (delay * 2)
          (t.1, t.2.1 + 1, delay :: t.2.2)
        else (.error e, 1, [])
      | 0 => (.error e, 1, [])

theorem retryAPI_ok {α : Type} (op : Nat → Except ApiError α) (k r d : Nat)
    (v : α) (hop : op k = .ok v) :
    retryAPI op k r d = (.ok v, 1, []) := by
  rw [retryAPI, hop]

theorem retryAPI_stop {α : Type} (op : Nat → Except ApiError α) (k r d : Nat)
    (e : ApiError) (hop : op k = .error e)
    (h : isTransientErr e = false ∨ r = 0) :
    retryAPI op k r d = (.error e, 1, []) := by
  rw [retryAPI, hop]
  rcases h with h | h
  · cases r <;> simp [h]
  · subst h; rfl

theorem retryAPI_step {α : Type} (op : Nat → Except ApiError α) (k r d : Nat)
    (e : ApiError) (hop : op k = .error e) (ht : isTransientErr e = true) :
    retryAPI op k (r + 1) d =
      ((retryAPI op (k + 1) r (d * 2)).1,
       (retryAPI op (k + 1) r (d * 2)).2.1 + 1,
       d :: (retryAPI op (k + 1) r (d * 2)).2.2) := by
  rw [retryAPI, hop]
  simp [ht]

/-- Constant-failure exhaustion: a transiently failing operation that always
throws the same error is invoked `r + 1` times and the error is propagated. -/
theorem retryAPI_const_error {α : Type} (op : Nat → Except ApiError α)
    (e : ApiError) (hop : ∀ i, op i = .error e) (ht : isTransientErr e = true) :
    ∀ r k d, (retryAPI op k r d).1 = .error e ∧ (retryAPI op k r d).2.1 = r + 1 := by
  intro r
  induction r with
  | zero =>
    intro k d
    rw [retryAPI_stop op k 0 d e (hop k) (Or.inr rfl)]
    exact ⟨rfl, rfl⟩
  | succ n ih =>
    intro k d
    rw [retryAPI_step op k n d e (hop k) ht]
    exact ⟨(ih (k + 1) (d * 2)).1, by rw [(ih (k + 1) (d * 2)).2]⟩

/-- Exhaustion trace of `retryAPI` when every invocation fails with the
transient signature: `N + 1` invocations, delays `d, 2d, …, 2^(N-1)·d`. -/
theorem retryAPI_exhaust_trace {α : Type} (op : Nat → Except ApiError α)
    (N : Nat) (k d : Nat)
    (h : ∀ i, ∃ e, op i = .error e ∧ isTransientErr e = true) :
    (retryAPI op k N d).2.1 = N + 1 ∧
    (retryAPI op k N d).2.2 = (List.range N).map (fun j => d * 2 ^ j) := by
  induction N generalizing k d with
  | zero =>
    obtain ⟨e, hop, _⟩ := h k
    rw [retryAPI_stop op k 0 d e hop (Or.inr rfl)]
    simp
  | succ n ih =>
    obtain ⟨e, hop, ht⟩ := h k
    rw [retryAPI_step op k n d e hop ht]
    obtain ⟨h1, h2⟩ := ih (k + 1) (d * 2)
    refine ⟨by simpa using h1, ?_⟩
    simp only [h2, List.range_succ_eq_map, List.map_cons, List.map_map]
    refine List.cons_eq_cons.mpr ⟨by simp, ?_⟩
    apply List.map_congr_left
    intro j _
    simp only [Function.comp_apply, pow_succ]
    ring

/-- C1: for an operation every invocation of which fails with the
transient-rate-limit signature (status 429 or 503, or a message containing
"429", "RESOURCE_EXHAUSTED" or "quota") and a retry budget of `N`, `retryAPI`
invokes the operation exactly `N + 1` times and the delay slept before the
k-th retry (`k = 1, …, N`) equals `initialDelay * 2 ^ (k - 1)`: the delay list
is `[d·2⁰, d·2¹, …, d·2^(N-1)]`. -/
theorem retryAPI_transient_backoff {α : Type} (op : Nat → Except ApiError α)
    (N d : Nat)
    (h : ∀ i, ∃ e, op i = .error e ∧ isTransientErr e = true) :
    (retryAPI op 0 N d).2.1 = N + 1 ∧
    (retryAPI op 0 N d).2.2 = (List.range N).map (fun j => d * 2 ^ j) :=
  retryAPI_exhaust_trace op N 0 d h

theorem retryAPI_transient_backoff_witness :
    (retryAPI (fun _ => .error ⟨some 429, "rate limited"⟩ :
        Nat → Except ApiError Nat) 0 3 2000).2.1 = 3 + 1 ∧
    (retryAPI (fun _ => .error ⟨some 429, "rate limited"⟩ :
        Nat → Except ApiError Nat) 0 3 2000).2.2 =
      (List.range 3).map (fun j => 2000 * 2 ^ j) :=
  retryAPI_transient_backoff (fun _ => .error ⟨some 429, "rate limited"⟩) 3 2000
    (fun _ => ⟨⟨some 429, "rate limited"⟩, rfl, by decide⟩)

/-- C2: if the operation fails without the transient-rate-limit signature, or
fails transiently when the remaining retry budget is 0, `retryAPI` invokes the
operation exactly once at that point, sleeps no delay, and propagates the
failure value unchanged. -/
theorem retryAPI_no_retry {α : Type} (op : Nat → Except ApiError α)
    (k r d : Nat) (e : ApiError) (hop : op k = .error e)
    (h : isTransientErr e = false ∨ r = 0) :
    retryAPI op k r d = (.error e, 1, []) :=
  retryAPI_stop op k r d e hop h

theorem retryAPI_no_retry_witness :
    retryAPI (fun _ => .error ⟨some 500, "Internal Server Error"⟩ :
        Nat → Except ApiError Nat) 0 3 2000 =
      (.error ⟨some 500, "Internal Server Error"⟩, 1, []) :=
  retryAPI_no_retry (fun _ => .error ⟨some 500, "Internal Server Error"⟩)
    0 3 2000 ⟨some 500, "Internal Server Error"⟩ rfl (Or.inl (by decide))

/-- The character class `[0-9+\-]` of the exponent regex in
`replaceSuperscripts` (`geminiService.ts`, line 14). -/
def isExpChar (c : Char) : Bool :=
  ['0', '1', '2', '3', '4', '5', '6', '7', '8', '9', '+', '-'].contains c

/-- The superscript table of `replaceSuperscripts` (`geminiService.ts`,
lines 8-12), applied per character as `map[c] || c`. -/
def supChar (c : Char) : Char :=
  if c = '0' then '⁰' else if c = '1' then '¹' else if c = '2' then '²'
  else if c = '3' then '³' else if c = '4' then '⁴' else if c = '5' then '⁵'
  else if c = '6' then '⁶' else if c = '7' then '⁷' else if c = '8' then '⁸'
  else if c = '9' then '⁹' else if c = '+' then '⁺' else if c = '-' then '⁻'
  else c

/-- Character-list transducer equivalent to the global regex replacement
`text.replace(/\^([0-9+\-]+)/g, (_, m) => m.split('').map(c => map[c] || c).join(''))`
of `replaceSuperscripts` (`geminiService.ts`, lines 14-16): scanning left to
right, a literal `^` followed by a maximal nonempty run of `[0-9+\-]`
characters is replaced by the image of the run under `supChar` (the caret is
dropped); every other character is copied.  The boolean flag is true while
inside such a run. -/
def replAux : List Char → Bool → List Char
  | [], _ => []
  | [c], b => if b && isExpChar c then [supChar c] else [c]
  | c1 :: c2 :: rest, b =>
    if b && isExpChar c1 then supChar c1 :: replAux (c2 :: rest) true
    else if c1 == '^' && isExpChar c2 then supChar c2 :: replAux rest true
    else c1 :: replAux (c2 :: rest) false

/-- `replaceSuperscripts` (`geminiService.ts`, lines 7-17). -/
def replaceSuperscripts (s : String) : String :=
  ⟨replAux s.data false⟩

/-- True when the text contains no occurrence of `^` immediately followed by
an `[0-9+\-]` character, i.e. no match of the exponent regex. -/
def noCaretExp : List Char → Bool
  | [] => true
  | [_] => true
  | c1 :: c2 :: rest => !(c1 == '^' && isExpChar c2) && noCaretExp (c2 :: rest)

/-- Whether the first character, if any, is in the `[0-9+\-]` class. -/
def headExp : List Char → Bool
  | [] => false
  | c :: _ => isExpChar c

theorem bool_and_true {a b : Bool} (h : (a && b) = true) :
    a = true ∧ b = true := by
  cases a <;> cases b <;> simp_all

theorem bool_and_false {a b : Bool} (h : (a && b) = false) :
    a = false ∨ b = false := by
  cases a <;> cases b <;> simp_all

theorem bool_not_true {b : Bool} (h : ¬ b = true) : b = false := by
  cases b <;> simp_all

theorem bool_neg_true {b : Bool} (h : (!b) = true) : b = false := by
  cases b <;> simp_all

theorem isExpChar_cases (c : Char) (h : isExpChar c = true) :
    c = '0' ∨ c = '1' ∨ c = '2' ∨ c = '3' ∨ c = '4' ∨ c = '5' ∨ c = '6' ∨
    c = '7' ∨ c = '8' ∨ c = '9' ∨ c = '+' ∨ c = '-' := by
  simpa [isExpChar, List.contains] using h

theorem supChar_not_special (c : Char) (h : isExpChar c = true) :
    isExpChar (supChar c) = false ∧ (supChar c == '^') = false := by
  rcases isExpChar_cases c h with h|h|h|h|h|h|h|h|h|h|h|h <;> subst h <;> decide

theorem replAux_nil (b : Bool) : replAux [] b = [] := rfl

theorem replAux_single (c : Char) (b : Bool) :
    replAux [c] b = if b && isExpChar c then [supChar c] else [c] := rfl

theorem replAux_cons2 (c1 c2 : Char) (rest : List Char) (b : Bool) :
    replAux (c1 :: c2 :: rest) b =
      if b && isExpChar c1 then supChar c1 :: replAux (c2 :: rest) true
      else if c1 == '^' && isExpChar c2 then supChar c2 :: replAux rest true
      else c1 :: replAux (c2 :: rest) false := rfl

theorem noCaretExp_cons2 (c1 c2 : Char) (r : List Char) :
    noCaretExp (c1 :: c2 :: r) =
      (!(c1 == '^' && isExpChar c2) && noCaretExp (c2 :: r)) := rfl

theorem noCaretExp_cons_of_ne (x : Char) (X : List Char)
    (hx : (x == '^') = false) : noCaretExp (x :: X) = noCaretExp X := by
  cases X with
  | nil => rfl
  | cons c2 r => rw [noCaretExp_cons2]; simp [hx]

/-- Output-head analysis: starting a fresh scan at a non-exponent character,
the output is nonempty and starts with a non-exponent character. -/
theorem replAux_false_head (c : Char) (t : List Char) (h : isExpChar c = false) :
    ∃ d t2, replAux (c :: t) false = d :: t2 ∧ isExpChar d = false := by
  cases t with
  | nil => exact ⟨c, [], by rw [replAux_single]; simp, h⟩
  | cons c2 r =>
    rw [replAux_cons2]
    by_cases h2 : (c == '^' && isExpChar c2) = true
    · refine ⟨supChar c2, replAux r true, by simp [h2], ?_⟩
      exact (supChar_not_special c2 (bool_and_true h2).2).1
    · exact ⟨c, replAux (c2 :: r) false,
        by simp [bool_not_true h2], h⟩

/-- The output of the rewriter contains no remaining exponent-regex match. -/
theorem replAux_clean_aux :
    ∀ (n : Nat) (l : List Char), l.length ≤ n → ∀ b,
      noCaretExp (replAux l b) = true := by
  intro n
  induction n with
  | zero =>
    intro l hl b
    have : l = [] := List.eq_nil_of_length_eq_zero (Nat.le_zero.mp hl)
    subst this; rfl
  | succ n ih =>
    intro l hl b
    match l with
    | [] => rfl
    | [c] =>
      rw [replAux_single]
      by_cases hc : (b && isExpChar c) = true
      · rw [if_pos hc]; rfl
      · rw [if_neg hc]; rfl
    | c1 :: c2 :: rest =>
      have hlen : (c2 :: rest).length ≤ n := by
        simp only [List.length_cons] at hl ⊢; omega
      have hlen2 : rest.length ≤ n := by
        simp only [List.length_cons] at hl ⊢; omega
      rw [replAux_cons2]
      by_cases h1 : (b && isExpChar c1) = true
      · rw [if_pos h1]
        have hs := supChar_not_special c1 (bool_and_true h1).2
        rw [noCaretExp_cons_of_ne _ _ hs.2]
        exact ih (c2 :: rest) hlen true
      · rw [if_neg h1]
        by_cases h2 : (c1 == '^' && isExpChar c2) = true
        · rw [if_pos h2]
          have hs := supChar_not_special c2 (bool_and_true h2).2
          rw [noCaretExp_cons_of_ne _ _ hs.2]
          exact ih rest hlen2 true
        · rw [if_neg h2]
          by_cases hc1 : (c1 == '^') = true
          · have hc2 : isExpChar c2 = false := by
              rcases bool_and_false (bool_not_true h2) with h | h
              · rw [hc1] at h; exact absurd h (by simp)
              · exact h
            obtain ⟨d, t2, hrepl, hd⟩ := replAux_false_head c2 rest hc2
            rw [hrepl, noCaretExp_cons2]
            have hclean : noCaretExp (d :: t2) = true := by
              rw [← hrepl]; exact ih (c2 :: rest) hlen false
            simp [hd, hclean]
          · rw [noCaretExp_cons_of_ne _ _ (bool_not_true hc1)]
            exact ih (c2 :: rest) hlen false

theorem replAux_clean (l : List Char) (b : Bool) :
    noCaretExp (replAux l b) = true :=
  replAux_clean_aux l.length l le_rfl b

/-- On match-free text the rewriter is the identity. -/
theorem replAux_id_of_clean : ∀ l, noCaretExp l = true → replAux l false = l := by
  intro l
  induction l with
  | nil => intro _; rfl
  | cons c1 t ih =>
    intro h
    cases t with
    | nil => rw [replAux_single]; simp
    | cons c2 rest =>
      rw [replAux_cons2, noCaretExp_cons2] at *
      obtain ⟨h1, h2⟩ := bool_and_true h
      have h1' : (c1 == '^' && isExpChar c2) = false := bool_neg_true h1
      simp [h1', ih h2]

/-- A match-free prefix is copied verbatim, provided the appended text does
not start with an exponent character (which could fuse with a trailing caret
of the prefix into a new match). -/
theorem replAux_append_clean (p x : List Char) (hp : noCaretExp p = true)
    (hx : headExp x = false) :
    replAux (p ++ x) false = p ++ replAux x false := by
  induction p with
  | nil => rfl
  | cons c1 p' ih =>
    cases p' with
    | nil =>
      cases x with
      | nil => rfl
      | cons x0 xs =>
        have hx0 : isExpChar x0 = false := by simpa [headExp] using hx
        rw [List.cons_append, List.nil_append, replAux_cons2]
        simp [hx0]
    | cons c2 p2 =>
      rw [noCaretExp_cons2] at hp
      obtain ⟨h1, h2⟩ := bool_and_true hp
      have h1' : (c1 == '^' && isExpChar c2) = false := bool_neg_true h1
      have hih := ih h2
      simp only [List.cons_append] at hih ⊢
      rw [replAux_cons2]
      simp only [Bool.false_and, Bool.false_eq_true, if_false, h1']
      rw [hih]

/-- Inside a run, a maximal block of exponent characters is mapped through
`supChar`, and scanning resumes fresh afterwards. -/
theorem replAux_run (run rest : List Char)
    (hrun : ∀ c ∈ run, isExpChar c = true) (hrest : headExp rest = false) :
    replAux (run ++ rest) true = run.map supChar ++ replAux rest false := by
  induction run with
  | nil =>
    cases rest with
    | nil => rfl
    | cons c t =>
      have hc : isExpChar c = false := by simpa [headExp] using hrest
      cases t with
      | nil => rw [List.nil_append, replAux_single, replAux_single]; simp [hc]
      | cons c2 r => rw [List.nil_append, replAux_cons2, replAux_cons2]; simp [hc]
  | cons r0 run' ih =>
    have h0 := hrun r0 (List.mem_cons_self _ _)
    have ih2 := ih (fun c hc => hrun c (List.mem_cons_of_mem _ hc))
    cases hrr : run' ++ rest with
    | nil =>
      obtain ⟨h1, h2⟩ := List.append_eq_nil.mp hrr
      subst h1; subst h2
      rw [List.cons_append, List.nil_append, replAux_single]
      simp [h0, replAux_nil]
    | cons y ys =>
      rw [List.cons_append, hrr, replAux_cons2, ← hrr]
      simp only [h0, Bool.true_and, if_pos]
      rw [ih2, List.map_cons, List.cons_append]

/-- Every occurrence of `^` followed by a nonempty maximal run of `[0-9+\-]`
characters is rewritten to the superscript image of the run (the caret is
dropped), and characters outside such occurrences are left unchanged: the
prefix before the occurrence only needs to be match-free (it may contain
stray carets not followed by an exponent character, as in "x^n + 10^-6"). -/
theorem replAux_rewrites (p run rest : List Char)
    (hp : noCaretExp p = true) (hne : run ≠ [])
    (hrun : ∀ c ∈ run, isExpChar c = true) (hrest : headExp rest = false) :
    replAux (p ++ '^' :: (run ++ rest)) false =
      p ++ (run.map supChar ++ replAux rest false) := by
  rw [replAux_append_clean p ('^' :: (run ++ rest)) hp rfl]
  congr 1
  cases run with
  | nil => exact absurd rfl hne
  | cons r0 run' =>
    have h0 := hrun r0 (List.mem_cons_self _ _)
    rw [List.cons_append, replAux_cons2]
    simp only [Bool.false_and, Bool.false_eq_true, if_false]
    have hcond : (('^' : Char) == '^' && isExpChar r0) = true := by simp [h0]
    rw [if_pos hcond,
      replAux_run run' rest (fun c hc => hrun c (List.mem_cons_of_mem _ hc)) hrest,
      List.map_cons, List.cons_append]

/-- C3: `replaceSuperscripts` rewrites every occurrence of the literal
character `^` followed by one or more characters from `{0-9, +, -}` into the
corresponding Unicode superscript sequence and leaves all other characters
unchanged; in particular it maps "x^2 + y^-1" to "x² + y⁻¹" and "10^-6" to
"10⁻⁶", and it is a no-op on text already containing Unicode superscripts:
applying it twice equals applying it once, on every input string. -/
theorem replaceSuperscripts_spec :
    replaceSuperscripts "x^2 + y^-1" = "x² + y⁻¹" ∧
    replaceSuperscripts "10^-6" = "10⁻⁶" ∧
    (∀ s : String,
      replaceSuperscripts (replaceSuperscripts s) = replaceSuperscripts s) ∧
    (∀ p run rest : List Char, noCaretExp p = true → run ≠ [] →
      (∀ c ∈ run, isExpChar c = true) → headExp rest = false →
      replAux (p ++ '^' :: (run ++ rest)) false =
        p ++ (run.map supChar ++ replAux rest false)) := by
  refine ⟨by decide, by decide, ?_, replAux_rewrites⟩
  intro s
  exact congrArg String.mk (replAux_id_of_clean _ (replAux_clean s.data false))

theorem replaceSuperscripts_spec_witness :
    replaceSuperscripts (replaceSuperscripts "E = mc^2") =
      replaceSuperscripts "E = mc^2" ∧
    replAux (['x', '^', 'n', ' ', '+', ' ', '1', '0'] ++
        '^' :: (['-', '6'] ++ [' ', 'm'])) false =
      ['x', '^', 'n', ' ', '+', ' ', '1', '0'] ++
        (['-', '6'].map supChar ++ replAux [' ', 'm'] false) :=
  ⟨replaceSuperscripts_spec.2.2.1 "E = mc^2",
   replaceSuperscripts_spec.2.2.2 ['x', '^', 'n', ' ', '+', ' ', '1', '0']
     ['-', '6'] [' ', 'm'] (by decide) (by decide) (by decide) (by decide)⟩

/-- A chapter category (`ChapterCategory` in `types.ts`): `{ category,
chapters }` as requested by the `getChapters` response schema. -/
structure ChapterCategory where
  category : String
  chapters : List String
deriving DecidableEq, Repr

/-- The remote response consumed by `getChapters`: the optional `text` field;
`some doc` means text was present and `JSON.parse` succeeded, with `doc` the
parsed document's optional `categories` field. -/
structure ChaptersResponse where
  text : Option (Option (List ChapterCategory))
deriving DecidableEq

/-- The response handler inside `getChapters` (`geminiService.ts`,
lines 185-189): `if (response.text) { return JSON.parse(...).categories || []; }
return [];`. -/
def getChaptersBody (r : ChaptersResponse) : List ChapterCategory :=
  match r.text with
  | some doc => doc.getD []
  | none => []

/-- Shallow embedding of `getChapters` (`geminiService.ts`, lines 150-191):
the generate-content call plus response handling, wrapped in `retryAPI` with
the default budget (3 retries, 2000ms initial delay).  There is no catch
around `retryAPI`, so a propagated failure leaves `getChapters` as an error. -/
def getChapters (op : Nat → Except ApiError ChaptersResponse) :
    Except ApiError (List ChapterCategory) × Nat × List Nat :=
  retryAPI (fun i => (op i).map getChaptersBody) 0 3 2000

/-- C4 counterexample: a `getChapters` call whose remote operation fails with
a non-transient error (HTTP 500) propagates that error to its caller instead
of returning the empty sequence, refuting the claim that an erroring call
"returns an empty sequence and never throws past its boundary". -/
theorem getChapters_error_escapes :
    (getChapters (fun _ => .error ⟨some 500, "Internal Server Error"⟩)).1 =
      .error ⟨some 500, "Internal Server Error"⟩ ∧
    (getChapters (fun _ => .error ⟨some 500, "Internal Server Error"⟩)).1 ≠
      .ok [] := by
  constructor
  · rfl
  · intro h
    exact absurd h (by decide)

/-- C4 (amended): when the remote response carries no content (`text` absent,
or the parsed document lacks `categories`), `getChapters` returns the empty
sequence after a single invocation; but when the call fails — non-transiently,
or transiently past the retry budget — the failure propagates out of
`getChapters` to its caller (whose own catch provides the fallback UI path). -/
theorem getChapters_amended :
    (∀ op : Nat → Except ApiError ChaptersResponse,
      op 0 = .ok ⟨none⟩ → getChapters op = (.ok [], 1, [])) ∧
    (∀ op : Nat → Except ApiError ChaptersResponse,
      op 0 = .ok ⟨some none⟩ → getChapters op = (.ok [], 1, [])) ∧
    (∀ (op : Nat → Except ApiError ChaptersResponse) (e : ApiError),
      op 0 = .error e → isTransientErr e = false →
      (getChapters op).1 = .error e) ∧
    (∀ (op : Nat → Except ApiError ChaptersResponse) (e : ApiError),
      (∀ i, op i = .error e) → isTransientErr e = true →
      (getChapters op).1 = .error e ∧ (getChapters op).2.1 = 4) := by
  refine ⟨?_, ?_, ?_, ?_⟩
  · intro op hop
    exact retryAPI_ok _ 0 3 2000 [] (by rw [hop]; rfl)
  · intro op hop
    exact retryAPI_ok _ 0 3 2000 [] (by rw [hop]; rfl)
  · intro op e hop ht
    rw [getChapters, retryAPI_stop _ 0 3 2000 e (by rw [hop]; rfl) (Or.inl ht)]
  · intro op e hop ht
    have hmap : ∀ i, (op i).map getChaptersBody = .error e := by
      intro i; rw [hop i]; rfl
    exact retryAPI_const_error _ e hmap ht 3 0 2000

theorem getChapters_amended_witness :
    getChapters (fun _ => .ok ⟨none⟩) = (.ok [], 1, []) ∧
    (getChapters (fun _ => .error ⟨some 400, "Bad Request"⟩)).1 =
      .error ⟨some 400, "Bad Request"⟩ ∧
    (getChapters (fun _ => .error ⟨some 429, "quota exceeded"⟩)).2.1 = 4 :=
  ⟨getChapters_amended.1 (fun _ => .ok ⟨none⟩) rfl,
   getChapters_amended.2.2.1 (fun _ => .error ⟨some 400, "Bad Request"⟩)
     ⟨some 400, "Bad Request"⟩ rfl (by decide),
   (getChapters_amended.2.2.2 (fun _ => .error ⟨some 429, "quota exceeded"⟩)
     ⟨some 429, "quota exceeded"⟩ (fun _ => rfl) (by decide)).2⟩

/-- The user-facing message thrown by `analyzeSyllabus` on rate-limited
exhausted retries (`geminiService.ts`, line 227). -/
def highTrafficMsg : String :=
  "High traffic. We are automatically retrying, but if this persists, please try again in a few minutes."

/-- The per-invocation operation of `analyzeSyllabus` (`geminiService.ts`,
lines 204-223): a remote response with no text becomes the thrown error
"No analysis generated"; otherwise the text is returned. -/
def analyzeSyllabusOp (op : Nat → Except ApiError (Option String)) (i : Nat) :
    Except ApiError String :=
  match op i with
  | .error e => .error e
  | .ok none => .error ⟨none, "No analysis generated"⟩
  | .ok (some t) => .ok t

/-- Shallow embedding of `analyzeSyllabus` (`geminiService.ts`,
lines 202-231): the operation above under `retryAPI(…, 3, 2000)`, with the
final `.catch` translating an error with status 429 or a message containing
"429" into the `highTrafficMsg` error and re-throwing anything else. -/
def analyzeSyllabus (op : Nat → Except ApiError (Option String)) :
    Except ApiError String × Nat × List Nat :=
  let t := retryAPI (analyzeSyllabusOp op) 0 3 2000
  ((match t.1 with
    | .ok v => .ok v
    | .error e =>
      if e.status == some 429 || containsSub e.message "429" then
        .error ⟨none, highTrafficMsg⟩
      else .error e), t.2)

/-- C7 counterexample: a remote failure with HTTP status 503 carries the
transient-rate-limit signature and exhausts all retries (4 invocations), yet
`analyzeSyllabus` propagates it unchanged instead of surfacing the distinct
HighTraffic failure — the `.catch` only converts status 429 / message "429". -/
theorem analyzeSyllabus_503_not_high_traffic :
    isTransientErr ⟨some 503, "Service Unavailable"⟩ = true ∧
    (analyzeSyllabus (fun _ => .error ⟨some 503, "Service Unavailable"⟩)).2.1 = 4 ∧
    (analyzeSyllabus (fun _ => .error ⟨some 503, "Service Unavailable"⟩)).1 =
      .error ⟨some 503, "Service Unavailable"⟩ ∧
    (analyzeSyllabus (fun _ => .error ⟨some 503, "Service Unavailable"⟩)).1 ≠
      .error ⟨none, highTrafficMsg⟩ := by
  refine ⟨by decide, rfl, rfl, by decide⟩

/-- C7 (amended): `analyzeSyllabus` fails with the EmptyAnalysis error
("No analysis generated") after a single invocation when the remote
collaborator returns no text; when its retries are exhausted by a failure
whose status is 429 or whose message contains "429" it surfaces the distinct
HighTraffic failure; an exhausting transient failure without a "429" marker
(e.g. plain 503 / quota signatures), and any non-transient failure, propagate
unchanged. -/
theorem analyzeSyllabus_amended :
    (∀ op : Nat → Except ApiError (Option String), op 0 = .ok none →
      (analyzeSyllabus op).1 = .error ⟨none, "No analysis generated"⟩ ∧
      (analyzeSyllabus op).2.1 = 1) ∧
    (∀ (op : Nat → Except ApiError (Option String)) (e : ApiError),
      (∀ i, op i = .error e) → isTransientErr e = true →
      (e.status == some 429 || containsSub e.message "429") = true →
      (analyzeSyllabus op).1 = .error ⟨none, highTrafficMsg⟩ ∧
      (analyzeSyllabus op).2.1 = 4) ∧
    (∀ (op : Nat → Except ApiError (Option String)) (e : ApiError),
      (∀ i, op i = .error e) → isTransientErr e = true →
      (e.status == some 429 || containsSub e.message "429") = false →
      (analyzeSyllabus op).1 = .error e ∧ (analyzeSyllabus op).2.1 = 4) ∧
    (∀ (op : Nat → Except ApiError (Option String)) (e : ApiError),
      op 0 = .error e → isTransientErr e = false →
      (analyzeSyllabus op).1 = .error e ∧ (analyzeSyllabus op).2.1 = 1) := by
  refine ⟨?_, ?_, ?_, ?_⟩
  · intro op hop
    have hbody : analyzeSyllabusOp op 0 = .error ⟨none, "No analysis generated"⟩ := by
      rw [analyzeSyllabusOp, hop]
    rw [analyzeSyllabus,
      retryAPI_stop _ 0 3 2000 _ hbody (Or.inl (by decide))]
    exact ⟨rfl, rfl⟩
  · intro op e hop ht h429
    have hbody : ∀ i, analyzeSyllabusOp op i = .error e := by
      intro i; rw [analyzeSyllabusOp, hop i]
    obtain ⟨h1, h2⟩ := retryAPI_const_error _ e hbody ht 3 0 2000
    rw [analyzeSyllabus]
    refine ⟨?_, by simpa using h2⟩
    simp only [h1, h429]
    rfl
  · intro op e hop ht h429
    have hbody : ∀ i, analyzeSyllabusOp op i = .error e := by
      intro i; rw [analyzeSyllabusOp, hop i]
    obtain ⟨h1, h2⟩ := retryAPI_const_error _ e hbody ht 3 0 2000
    rw [analyzeSyllabus]
    refine ⟨?_, by simpa using h2⟩
    simp only [h1, h429]
    rfl
  · intro op e hop ht
    have hbody : analyzeSyllabusOp op 0 = .error e := by
      rw [analyzeSyllabusOp, hop]
    have ha : (e.status == some 429) = false := by
      cases h : e.status == some 429
      · rfl
      · rw [isTransientErr, h] at ht; simp at ht
    have hb : containsSub e.message "429" = false := by
      cases h : containsSub e.message "429"
      · rfl
      · rw [isTransientErr, h] at ht; simp at ht
    have h429 : (e.status == some 429 || containsSub e.message "429") = false := by
      rw [ha, hb]; rfl
    rw [analyzeSyllabus, retryAPI_stop _ 0 3 2000 _ hbody (Or.inl ht)]
    refine ⟨?_, rfl⟩
    simp only [h429]
    rfl

theorem analyzeSyllabus_amended_witness :
    (analyzeSyllabus (fun _ => .ok none)).1 =
      .error ⟨none, "No analysis generated"⟩ ∧
    (analyzeSyllabus (fun _ => .error ⟨some 429, "rate limited"⟩)).1 =
      .error ⟨none, highTrafficMsg⟩ ∧
    (analyzeSyllabus (fun _ => .error ⟨some 503, "overloaded"⟩)).1 =
      .error ⟨some 503, "overloaded"⟩ ∧
    (analyzeSyllabus (fun _ => .error ⟨some 400, "Bad Request"⟩)).1 =
      .error ⟨some 400, "Bad Request"⟩ :=
  ⟨(analyzeSyllabus_amended.1 (fun _ => .ok none) rfl).1,
   (analyzeSyllabus_amended.2.1 (fun _ => .error ⟨some 429, "rate limited"⟩)
     ⟨some 429, "rate limited"⟩ (fun _ => rfl) (by decide) (by decide)).1,
   (analyzeSyllabus_amended.2.2.1 (fun _ => .error ⟨some 503, "overloaded"⟩)
     ⟨some 503, "overloaded"⟩ (fun _ => rfl) (by decide) (by decide)).1,
   (analyzeSyllabus_amended.2.2.2 (fun _ => .error ⟨some 400, "Bad Request"⟩)
     ⟨some 400, "Bad Request"⟩ rfl (by decide)).1⟩

/-- The role of a chat message (`ChatMessage` in `types.ts`). -/
inductive Role : Type
  | user : Role
  | model : Role
deriving DecidableEq, Repr

/-- A transcript entry of the AI tutor (`ChatMessage` in `types.ts`). -/
structure ChatMessage where
  role : Role
  text : String
deriving DecidableEq, Repr

/-- The fixed apology text appended by `AITutor.handleSend` on failure. -/
def apologyMsg : String := "I'm sorry, I encountered an error. Please try again."

/-- Whitespace as trimmed by JavaScript `String.prototype.trim`. -/
def isWs (c : Char) : Bool :=
  c = ' ' || c = '\t' || c = '\n' || c = '\r'

/-- JavaScript `text.trim()`. -/
def jsTrim (s : String) : String :=
  ⟨((s.data.dropWhile isWs).reverse.dropWhile isWs).reverse⟩

/-- Concatenation of the received stream fragments in receipt order. -/
def concatStrs : List String → String
  | [] => ""
  | t :: rest => t ++ concatStrs rest

/-- `updated[updated.length - 1].text = fullResponse` of `handleSend`:
overwrite the last message's text, keeping its role. -/
def setLastText : List ChatMessage → String → List ChatMessage
  | [], _ => []
  | [m], t => [⟨m.role, t⟩]
  | m :: m2 :: rest, t => m :: setLastText (m2 :: rest) t

/-- The `for await (const chunk of resultStream)` loop of `handleSend`
(`part_002`, lines 58-68): each chunk with truthy text is concatenated onto
the running accumulator and written over the last transcript entry; chunks
with empty text are skipped. -/
def streamFold : List ChatMessage → String → List String → List ChatMessage
  | msgs, _, [] => msgs
  | msgs, acc, t :: rest =>
    if t = "" then streamFold msgs acc rest
    else streamFold (setLastText msgs (acc ++ t)) (acc ++ t) rest

/-- How a tutor turn's remote stream behaves: it either succeeds delivering
all fragments, fails while issuing the request (before the placeholder Model
message is appended), or fails mid-stream after the given fragments were
consumed. -/
inductive StreamOutcome : Type
  | success (frags : List String) : StreamOutcome
  | failStart : StreamOutcome
  | failDuring (consumed : List String) : StreamOutcome

/-- Shallow embedding of `AITutor.handleSend` (`part_002`, lines 43-75):
a blank (whitespace-only) input is rejected; otherwise the User message is
appended, and on the stream outcome either the placeholder Model message is
appended and grown fragment by fragment, or the catch block APPENDS a new
Model message with `apologyMsg` (`setMessages(prev => [...prev, apology])`). -/
def handleSend (msgs : List ChatMessage) (text : String)
    (out : StreamOutcome) : List ChatMessage :=
  if jsTrim text = "" then msgs
  else
    match out with
    | .failStart => (msgs ++ [⟨.user, text⟩]) ++ [⟨.model, apologyMsg⟩]
    | .success frags =>
      streamFold ((msgs ++ [⟨.user, text⟩]) ++ [⟨.model, ""⟩]) "" frags
    | .failDuring consumed =>
      streamFold ((msgs ++ [⟨.user, text⟩]) ++ [⟨.model, ""⟩]) "" consumed ++
        [⟨.model, apologyMsg⟩]

theorem strApp_assoc (a b c : String) : a ++ b ++ c = a ++ (b ++ c) := by
  cases a; cases b; cases c
  exact congrArg String.mk (List.append_assoc _ _ _)

theorem setLastText_append (pre : List ChatMessage) (m : ChatMessage)
    (t : String) : setLastText (pre ++ [m]) t = pre ++ [⟨m.role, t⟩] := by
  induction pre with
  | nil => rfl
  | cons x pre' ih =>
    cases hp : pre' ++ [m] with
    | nil => exact absurd hp (by simp)
    | cons y ys =>
      rw [List.cons_append, hp, setLastText, ← hp, ih, List.cons_append]

/-- Streaming into the last (placeholder) entry only ever grows that entry:
the result is the prefix unchanged, with the accumulator extended by the
concatenation of the fragments. -/
theorem streamFold_append (frags : List String) :
    ∀ (pre : List ChatMessage) (r : Role) (acc : String),
      streamFold (pre ++ [⟨r, acc⟩]) acc frags =
        pre ++ [⟨r, acc ++ concatStrs frags⟩] := by
  induction frags with
  | nil =>
    intro pre r acc
    rw [streamFold, concatStrs]
    cases acc
    exact congrArg (fun l => pre ++ [ChatMessage.mk r l])
      (congrArg String.mk (List.append_nil _)).symm
  | cons t rest ih =>
    intro pre r acc
    rw [streamFold]
    by_cases ht : t = ""
    · rw [if_pos ht, ih pre r acc, ht, concatStrs]
      have : ("" : String) ++ concatStrs rest = concatStrs rest := rfl
      rw [this]
    · rw [if_neg ht, setLastText_append, ih pre r (acc ++ t), concatStrs,
        strApp_assoc]

/-- C6: for every non-blank input and every finite fragment sequence, a
successful tutor turn appends exactly one User message carrying the input,
followed by exactly one Model message whose final text is the concatenation
of all received fragments in receipt order; no pre-existing transcript entry
is modified. -/
theorem handleSend_success (msgs : List ChatMessage) (text : String)
    (frags : List String) (h : jsTrim text ≠ "") :
    handleSend msgs text (.success frags) =
      msgs ++ [⟨.user, text⟩, ⟨.model, concatStrs frags⟩] := by
  rw [handleSend, if_neg h]
  have := streamFold_append frags (msgs ++ [⟨.user, text⟩]) .model ""
  rw [this]
  have h2 : ("" : String) ++ concatStrs frags = concatStrs frags := rfl
  rw [h2, List.append_assoc]
  rfl

theorem handleSend_success_witness :
    handleSend [] "What is light?" (.success ["Light ", "is ", "a wave."]) =
      [] ++ [⟨.user, "What is light?"⟩,
             ⟨.model, concatStrs ["Light ", "is ", "a wave."]⟩] :=
  handleSend_success [] "What is light?" ["Light ", "is ", "a wave."]
    (by decide)

/-- C5 counterexample: a turn that fails mid-stream after the fragment "par"
was consumed leaves THREE new entries semantics-wise: the User message, the
partial Model message still holding "par", and a newly appended Model apology
message.  The in-progress Model message is not replaced — the transcript is
left with the truncated partial answer as a separate entry (its text differs
from the apology), refuting the claimed replacement behaviour. -/
theorem handleSend_partial_not_replaced :
    handleSend [] "Hi" (.failDuring ["par"]) =
      [⟨.user, "Hi"⟩, ⟨.model, "par"⟩, ⟨.model, apologyMsg⟩] ∧
    handleSend [] "Hi" (.failDuring ["par"]) ≠
      [⟨.user, "Hi"⟩, ⟨.model, apologyMsg⟩] ∧
    ("par" : String) ≠ apologyMsg := by
  refine ⟨by decide, by decide, by decide⟩

/-- C5 (amended): on a failing turn the apology is APPENDED as a new Model
message rather than replacing the in-progress one: the transcript ends with a
Model message whose text is exactly `apologyMsg`, preceded — when the stream
failed after the placeholder was created — by the partial Model message
holding the fragments consumed so far; a failure while issuing the request
appends only the apology after the User message. -/
theorem handleSend_failure_appends (msgs : List ChatMessage) (text : String)
    (consumed : List String) (h : jsTrim text ≠ "") :
    handleSend msgs text (.failDuring consumed) =
      msgs ++ [⟨.user, text⟩, ⟨.model, concatStrs consumed⟩,
               ⟨.model, apologyMsg⟩] ∧
    handleSend msgs text .failStart =
      msgs ++ [⟨.user, text⟩, ⟨.model, apologyMsg⟩] := by
  constructor
  · rw [handleSend, if_neg h]
    have := streamFold_append consumed (msgs ++ [⟨.user, text⟩]) .model ""
    rw [this]
    have h2 : ("" : String) ++ concatStrs consumed = concatStrs consumed := rfl
    rw [h2, List.append_assoc, List.append_assoc]
    rfl
  · rw [handleSend, if_neg h, List.append_assoc]
    rfl

theorem handleSend_failure_appends_witness :
    handleSend [] "Hi" (.failDuring ["par"]) =
      [] ++ [⟨.user, "Hi"⟩, ⟨.model, concatStrs ["par"]⟩,
             ⟨.model, apologyMsg⟩] :=
  (handleSend_failure_appends [] "Hi" ["par"] (by decide)).1

/-- An application user: the `User` interface of `types.ts` (bundled in
`src/components/BookmarksView.tsx`, lines 165-171): {id, name, email,
optional avatar, provider}; the provider union
'google' | 'email' | 'anonymous' is kept as a string, and the optional
`avatar?: string` becomes `Option String`. -/
structure User where
  id : String
  name : String
  email : String
  avatar : Option String
  provider : String
deriving DecidableEq, Repr

/-- The checked-in Supabase placeholder URL (`userService.ts`, line 7). -/
def supabaseUrl : String := "YOUR_SUPABASE_URL_HERE"

/-- `userService.ts`, line 11: whether the configuration was updated.  With
the checked-in placeholder this is false, so the `supabase` client is null
and every remote-auth path is dead. -/
def isFirebaseConfigured : Bool := supabaseUrl != "YOUR_SUPABASE_URL_HERE"

/-- JavaScript `s.slice(-6)`: the final six characters. -/
def lastSix (s : String) : String :=
  ⟨s.data.drop (s.data.length - 6)⟩

/-- The guest `User` literal built by `loginUser` for provider "anonymous"
(`userService.ts`, lines 42-48), with `Date.now()` passed in as `now`. -/
def guestUserAt (now : Nat) : User :=
  { id := "guest-" ++ lastSix (toString now),
    name := "Guest Student",
    email := "",
    avatar := some "https://api.dicebear.com/7.x/avataaars/svg?seed=guest",
    provider := "anonymous" }

/-- Shallow embedding of `loginUser` (`userService.ts`, lines 39-93) for the
paths reachable with the placeholder configuration: the "anonymous" provider
is handled fully locally — the guest user is persisted in the guest
local-storage slot (returned as the first component) and returned; every
other provider throws CONFIGURATION_ERROR before any network I/O because
`isFirebaseConfigured` is false and `supabase` is null. -/
def loginUser (providerName : String) (now : Nat) :
    Except String (Option User × User) :=
  if providerName = "anonymous" then
    .ok (some (guestUserAt now), guestUserAt now)
  else
    .error "CONFIGURATION_ERROR: Please open 'services/userService.ts' and paste your Supabase URL and Key."

/-- `logoutUser` (`userService.ts`, lines 122-129): clears the guest slot;
with a null `supabase` client no remote sign-out happens. -/
def logoutUser (_storage : Option User) : Option User := none

/-- Shallow embedding of `subscribeToAuthChanges` (`userService.ts`,
lines 131-164) restricted to its immediate callback invocations, with the
guest local-storage slot passed as an already-parsed `Option User`: a present
guest session is yielded first; with a null `supabase` client (placeholder
configuration) and no guest session, `null` is yielded; the remote
subscription branch (unreachable here) yields nothing immediately. -/
def subscribeToAuthChanges (storage : Option User) : List (Option User) :=
  match storage with
  | some guest => [some guest]
  | none => if isFirebaseConfigured then [] else [none]

/-- C9: a guest (anonymous) login never contacts the remote auth
collaborator: it persists the guest User in the guest storage slot and
returns it; a subsequent `subscribeToAuthChanges` immediately yields exactly
that guest User even though the remote client is unconfigured; after
`logoutUser` (which removes the guest session) the subscription yields null. -/
theorem guest_auth_flow (now : Nat) :
    loginUser "anonymous" now = .ok (some (guestUserAt now), guestUserAt now) ∧
    (guestUserAt now).provider = "anonymous" ∧
    subscribeToAuthChanges (some (guestUserAt now)) = [some (guestUserAt now)] ∧
    subscribeToAuthChanges (logoutUser (some (guestUserAt now))) = [none] := by
  refine ⟨?_, rfl, rfl, ?_⟩
  · rw [loginUser, if_pos rfl]
  · rw [logoutUser, subscribeToAuthChanges]
    rfl

theorem guest_auth_flow_witness :
    loginUser "anonymous" 1717171717 =
      .ok (some (guestUserAt 1717171717), guestUserAt 1717171717) ∧
    (guestUserAt 1717171717).provider = "anonymous" ∧
    subscribeToAuthChanges (some (guestUserAt 1717171717)) =
      [some (guestUserAt 1717171717)] ∧
    subscribeToAuthChanges (logoutUser (some (guestUserAt 1717171717))) =
      [none] :=
  guest_auth_flow 1717171717

/-- The `SolvedQuestion` interface of `types.ts` (bundled in
`src/components/BookmarksView.tsx`, lines 137-140). -/
structure SolvedQuestion where
  question : String
  solution : String
deriving DecidableEq, Repr

/-- The `NoteSection` interface of `types.ts` (bundled in
`src/components/BookmarksView.tsx`, lines 129-135): heading and contentPoints
are required; bulletPoints, importantTerms and imageDescription are
optional. -/
structure NoteSection where
  heading : String
  contentPoints : List String
  bulletPoints : Option (List String)
  importantTerms : Option (List String)
  imageDescription : Option String
deriving DecidableEq, Repr

/-- The `StudyNote` interface of `types.ts` (bundled in
`src/components/BookmarksView.tsx`, lines 142-153): all fields required. -/
structure StudyNote where
  topic : String
  subject : String
  classLevel : String
  introduction : String
  sections : List NoteSection
  summary : String
  examTips : List String
  solvedQuestions : List SolvedQuestion
  commonMistakes : List String
  realWorldApplications : List String
deriving DecidableEq, Repr

/-- The `Bookmark` interface of `types.ts` (bundled in
`src/components/BookmarksView.tsx`, lines 173-182); the `type` union
'topic' | 'section' is kept as a string and the optional
`sectionIndex?: number` becomes `Option Nat`. -/
structure Bookmark where
  id : String
  userId : String
  type : String
  title : String
  subtitle : String
  timestamp : Nat
  noteData : StudyNote
  sectionIndex : Option Nat
deriving DecidableEq, Repr

/-- The de-duplication predicate of `addBookmark` (`userService.ts`,
lines 187-191): same (type, noteData.topic, sectionIndex) triple. -/
def sameTriple (type topic : String) (si : Option Nat) (b : Bookmark) : Bool :=
  b.type == type && b.noteData.topic == topic && b.sectionIndex == si

/-- The title computation of `addBookmark` (`userService.ts`, line 180):
`type === 'topic' ? noteData.topic : noteData.sections[sectionIndex!].heading`.
Indexing with an absent or out-of-bounds `sectionIndex` is the JavaScript
TypeError branch, modelled as `none`. -/
def bookmarkTitle (noteData : StudyNote) (type : String)
    (sectionIndex : Option Nat) : Option String :=
  if type = "topic" then some noteData.topic
  else match sectionIndex with
    | some i => (noteData.sections.get? i).map NoteSection.heading
    | none => none

/-- Shallow embedding of `addBookmark` (`userService.ts`, lines 172-200).
The bookmark blob is a total map from userId to bookmark list; `now` stands
for `Date.now()`.  Returns `none` exactly on the indexing TypeError branch;
otherwise the (possibly unchanged) blob and the freshly constructed bookmark
(which the source returns even when the duplicate check suppresses the
write). -/
def addBookmark (store : String → List Bookmark) (now : Nat) (userId : String)
    (noteData : StudyNote) (type : String) (sectionIndex : Option Nat) :
    Option ((String → List Bookmark) × Bookmark) :=
  let userBookmarks := store userId
  match bookmarkTitle noteData type sectionIndex with
  | none => none
  | some title =>
    let newBookmark : Bookmark := {
      id := "bm_" ++ toString now,
      userId := userId,
      type := type,
      title := title,
      subtitle := if type = "topic"
        then noteData.classLevel ++ " â€¢ " ++ noteData.subject
        else "From: " ++ noteData.topic,
      timestamp := now,
      noteData := noteData,
      sectionIndex := sectionIndex }
    if userBookmarks.any (sameTriple type noteData.topic sectionIndex) then
      some (store, newBookmark)
    else
      some (fun u => if u = userId then newBookmark :: userBookmarks else store u,
            newBookmark)

/-- Shallow embedding of `removeBookmark` (`userService.ts`, lines 202-208):
filter the user's list by id.  On the total-map model the presence check
`if (allBookmarks[userId])` only suppresses a no-op write (filtering the
empty default), so it coincides with unconditional filtering. -/
def removeBookmark (store : String → List Bookmark)
    (userId bookmarkId : String) : String → List Bookmark :=
  fun u =>
    if u = userId then (store userId).filter (fun b => b.id != bookmarkId)
    else store u

/-- C8: for every user and StudyNote — a first add of a (type, topic,
sectionIndex) triple not yet stored leaves exactly one matching entry, and a
second add of the same triple for the same user performs no write (the blob
is returned unchanged); the add touches no other user's list, so adds for two
different users yield independent entries; and removing a bookmark id that is
not present leaves every user's bookmark list unchanged. -/
theorem bookmark_store_spec :
    (∀ (store : String → List Bookmark) (now1 now2 : Nat) (u : String)
        (note : StudyNote) (ty : String) (si : Option Nat)
        (s1 : String → List Bookmark) (b1 : Bookmark),
      addBookmark store now1 u note ty si = some (s1, b1) →
      (store u).countP (sameTriple ty note.topic si) = 0 →
      (s1 u).countP (sameTriple ty note.topic si) = 1 ∧
      ∃ b2, addBookmark s1 now2 u note ty si = some (s1, b2)) ∧
    (∀ (store : String → List Bookmark) (now : Nat) (u : String)
        (note : StudyNote) (ty : String) (si : Option Nat)
        (s1 : String → List Bookmark) (b1 : Bookmark) (v : String),
      addBookmark store now u note ty si = some (s1, b1) →
      v ≠ u → s1 v = store v) ∧
    (∀ (store : String → List Bookmark) (u bid : String),
      (∀ b ∈ store u, b.id ≠ bid) →
      ∀ v, removeBookmark store u bid v = store v) := by
  refine ⟨?_, ?_, ?_⟩
  · intro store now1 now2 u note ty si s1 b1 h hcount
    cases ht : bookmarkTitle note ty si with
    | none =>
      simp only [addBookmark, ht] at h
      exact absurd h (by simp)
    | some title =>
      have hany : (store u).any (sameTriple ty note.topic si) = false := by
        cases hany : (store u).any (sameTriple ty note.topic si)
        · rfl
        · obtain ⟨x, hx, hpx⟩ := List.any_eq_true.mp hany
          exact absurd hpx (List.countP_eq_zero.mp hcount x hx)
      simp only [addBookmark, ht, hany, Bool.false_eq_true, if_false,
        Option.some.injEq, Prod.mk.injEq] at h
      obtain ⟨hs, hb⟩ := h
      constructor
      · rw [← hs]
        simp [List.countP_cons, hcount, sameTriple]
      · have hany2 : (s1 u).any (sameTriple ty note.topic si) = true := by
          rw [← hs]
          simp [sameTriple]
        simp only [addBookmark, ht, hany2, if_true]
        exact ⟨_, rfl⟩
  · intro store now u note ty si s1 b1 v h hv
    cases ht : bookmarkTitle note ty si with
    | none =>
      simp only [addBookmark, ht] at h
      exact absurd h (by simp)
    | some title =>
      by_cases hany : (store u).any (sameTriple ty note.topic si) = true
      · simp only [addBookmark, ht, hany, if_true, Option.some.injEq,
          Prod.mk.injEq] at h
        rw [← h.1]
      · simp only [addBookmark, ht, bool_not_true hany, Bool.false_eq_true,
          if_false, Option.some.injEq, Prod.mk.injEq] at h
        rw [← h.1]
        simp [hv]
  · intro store u bid h v
    rw [removeBookmark]
    by_cases hv : v = u
    · subst hv
      rw [if_pos rfl]
      exact List.filter_eq_self.mpr (fun b hb => bne_iff_ne.mpr (h b hb))
    · rw [if_neg hv]

/-- A concrete study note used as a witness input. -/
def note0 : StudyNote :=
  { topic := "Photosynthesis", subject := "Science", classLevel := "Class 10",
    introduction := "intro",
    sections := [{ heading := "Leaf Structure", contentPoints := ["cp"],
                   bulletPoints := none, importantTerms := none,
                   imageDescription := none }],
    summary := "summary", examTips := [], solvedQuestions := [],
    commonMistakes := [], realWorldApplications := [] }

/-- The empty bookmark blob. -/
def store0 : String → List Bookmark := fun _ => []

/-- The bookmark created by adding `note0` as a topic bookmark for "u1" at
time 5. -/
def bm1 : Bookmark :=
  { id := "bm_" ++ toString 5, userId := "u1", type := "topic",
    title := note0.topic,
    subtitle := note0.classLevel ++ " â€¢ " ++ note0.subject,
    timestamp := 5, noteData := note0, sectionIndex := none }

/-- The blob after that add. -/
def store1 : String → List Bookmark :=
  fun u => if u = "u1" then bm1 :: store0 "u1" else store0 u

theorem bookmark_store_spec_witness :
    (store1 "u1").countP (sameTriple "topic" note0.topic none) = 1 ∧
    store1 "u2" = store0 "u2" ∧
    removeBookmark store0 "u1" "missing-id" "u1" = store0 "u1" :=
  ⟨(bookmark_store_spec.1 store0 5 6 "u1" note0 "topic" none store1 bm1 rfl
      (by decide)).1,
   bookmark_store_spec.2.1 store0 5 "u1" note0 "topic" none store1 bm1 "u2"
     rfl (by decide),
   bookmark_store_spec.2.2 store0 "u1" "missing-id"
     (fun b hb => absurd hb (List.not_mem_nil b)) "u1"⟩

/-- C10: `addBookmark` with type "section" unconditionally indexes
`noteData.sections` at `sectionIndex` to compute the title, with no presence
or bounds check — when `sectionIndex` is absent or out of bounds the indexing
error branch (`none` in the total embedding) is reached, and under the
precondition `sectionIndex = some i` with `i` in bounds the call succeeds and
the bookmark's title is the indexed section's heading. -/
theorem addBookmark_section_bounds :
    (∀ (store : String → List Bookmark) (now : Nat) (u : String)
        (note : StudyNote) (si : Option Nat),
      (si = none ∨ ∃ i, si = some i ∧ note.sections.length ≤ i) →
      addBookmark store now u note "section" si = none) ∧
    (∀ (store : String → List Bookmark) (now : Nat) (u : String)
        (note : StudyNote) (i : Nat) (sec : NoteSection),
      note.sections.get? i = some sec →
      ∃ p, addBookmark store now u note "section" (some i) = some p ∧
        p.2.title = sec.heading) := by
  constructor
  · intro store now u note si hsi
    have hbt : bookmarkTitle note "section" si = none := by
      rcases hsi with h | ⟨i, hi, hlen⟩
      · subst h
        rw [bookmarkTitle, if_neg (by decide)]
      · subst hi
        rw [bookmarkTitle, if_neg (by decide)]
        rw [List.get?_eq_none.mpr hlen]
        rfl
    simp only [addBookmark, hbt]
  · intro store now u note i sec ht
    have hbt : bookmarkTitle note "section" (some i) = some sec.heading := by
      rw [bookmarkTitle, if_neg (by decide), ht]
      rfl
    simp only [addBookmark, hbt]
    by_cases hany : (store u).any (sameTriple "section" note.topic (some i)) = true
    · simp only [hany, if_true]
      exact ⟨_, rfl, rfl⟩
    · simp only [bool_not_true hany, Bool.false_eq_true, if_false]
      exact ⟨_, rfl, rfl⟩

theorem addBookmark_section_bounds_witness :
    addBookmark store0 7 "u1" note0 "section" none = none :=
  addBookmark_section_bounds.1 store0 7 "u1" note0 none (Or.inl rfl)
